import Mathlib

/-!
Shallow embedding of the locoloco model-railway controller core
(crates `loco_protocol` and `loco_controller`), together with proofs
about its wire-protocol conversions, rail-network model and Oracle
scheduling pass.  Rust `u8` values are modelled as `Nat` (all encoder
outputs are shown to stay below 256 where it matters), fallible
conversions return `Except` with the source's typed error enum, and
the Oracle's stateful loops are modelled as explicit recursion over
lists with the mutated state threaded through.
-/

namespace LocoLoco

/-! ### Wire protocol (`loco_protocol/src/lib.rs`) -/

/-- Typed decoding errors, from `loco_protocol::Error`.  Payloads that the
source carries (the offending byte, a `LocoId`, an `Operation`) are kept;
variants irrelevant to the claims are kept for completeness. -/
inductive ProtocolError where
  | UidTooLong
  | UnknownActuatorId (v : Nat)
  | UnknownActuatorType (v : Nat)
  | UnknownDirection (v : Nat)
  | UnknownLocoId (v : Nat)
  | UnknownOperation (v : Nat)
  | UnknownSensorId (v : Nat)
  | UnknownSpeed (v : Nat)
  | UnknownSwitchRailsState (v : Nat)
  | UnknownUid
  deriving DecidableEq, Repr

/-- `loco_protocol::LocoId`. -/
inductive LocoId where
  | Loco1
  | Loco2
  deriving DecidableEq, Repr, Fintype

/-- `impl TryFrom<u8> for LocoId`. -/
def locoIdOfU8 (value : Nat) : Except ProtocolError LocoId :=
  match value with
  | 1 => .ok .Loco1
  | 2 => .ok .Loco2
  | _ => .error (.UnknownLocoId value)

/-- `impl From<LocoId> for u8`. -/
def u8OfLocoId : LocoId → Nat
  | .Loco1 => 1
  | .Loco2 => 2

/-- `loco_protocol::SensorId`. -/
inductive SensorId where
  | RfidReader1
  | RfidReader2
  | RfidReader3
  | RfidReader4
  | RfidReader5
  | RfidReader6
  | RfidReader7
  | RfidReader8
  deriving DecidableEq, Repr, Fintype

/-- `impl TryFrom<u8> for SensorId`. -/
def sensorIdOfU8 (value : Nat) : Except ProtocolError SensorId :=
  match value with
  | 1 => .ok .RfidReader1
  | 2 => .ok .RfidReader2
  | 3 => .ok .RfidReader3
  | 4 => .ok .RfidReader4
  | 5 => .ok .RfidReader5
  | 6 => .ok .RfidReader6
  | 7 => .ok .RfidReader7
  | 8 => .ok .RfidReader8
  | _ => .error (.UnknownSensorId value)

/-- `impl From<SensorId> for u8`. -/
def u8OfSensorId : SensorId → Nat
  | .RfidReader1 => 1
  | .RfidReader2 => 2
  | .RfidReader3 => 3
  | .RfidReader4 => 4
  | .RfidReader5 => 5
  | .RfidReader6 => 6
  | .RfidReader7 => 7
  | .RfidReader8 => 8

/-- `loco_protocol::ActuatorId`. -/
inductive ActuatorId where
  | SwitchRails1
  | SwitchRails2
  | SwitchRails3
  | SwitchRails4
  | SwitchRails5
  | SwitchRails6
  | SwitchRails7
  | SwitchRails8
  deriving DecidableEq, Repr, Fintype

/-- `impl TryFrom<u8> for ActuatorId`. -/
def actuatorIdOfU8 (value : Nat) : Except ProtocolError ActuatorId :=
  match value with
  | 1 => .ok .SwitchRails1
  | 2 => .ok .SwitchRails2
  | 3 => .ok .SwitchRails3
  | 4 => .ok .SwitchRails4
  | 5 => .ok .SwitchRails5
  | 6 => .ok .SwitchRails6
  | 7 => .ok .SwitchRails7
  | 8 => .ok .SwitchRails8
  | _ => .error (.UnknownActuatorId value)

/-- `impl From<ActuatorId> for u8`. -/
def u8OfActuatorId : ActuatorId → Nat
  | .SwitchRails1 => 1
  | .SwitchRails2 => 2
  | .SwitchRails3 => 3
  | .SwitchRails4 => 4
  | .SwitchRails5 => 5
  | .SwitchRails6 => 6
  | .SwitchRails7 => 7
  | .SwitchRails8 => 8

/-- `loco_protocol::ActuatorType`. -/
inductive ActuatorType where
  | SwitchRails
  deriving DecidableEq, Repr

/-- `loco_protocol::SwitchRailsState`. -/
inductive SwitchRailsState where
  | Direct
  | Diverted
  deriving DecidableEq, Repr, Fintype

/-- `impl TryFrom<u8> for SwitchRailsState`. -/
def switchRailsStateOfU8 (value : Nat) : Except ProtocolError SwitchRailsState :=
  match value with
  | 1 => .ok .Direct
  | 2 => .ok .Diverted
  | _ => .error (.UnknownSwitchRailsState value)

/-- `impl From<SwitchRailsState> for u8`. -/
def u8OfSwitchRailsState : SwitchRailsState → Nat
  | .Direct => 1
  | .Diverted => 2

/-- `loco_protocol::Direction`. -/
inductive Direction where
  | Forward
  | Backward
  deriving DecidableEq, Repr, Fintype

/-- `impl TryFrom<u8> for Direction`. -/
def directionOfU8 (value : Nat) : Except ProtocolError Direction :=
  match value with
  | 1 => .ok .Forward
  | 2 => .ok .Backward
  | _ => .error (.UnknownDirection value)

/-- `impl From<Direction> for u8`. -/
def u8OfDirection : Direction → Nat
  | .Forward => 1
  | .Backward => 2

/-- `loco_protocol::Speed`.  The PWM duty cycle payload is a Rust `u8`,
modelled as `Nat`; the encoder clamps it, so no width hypothesis is needed. -/
inductive Speed where
  | Stop
  | Slow
  | Normal
  | Fast
  | PwmDutyCycle (duty : Nat)
  deriving DecidableEq, Repr

/-- `SPEED_PWM_RANGE` in the source. -/
def SPEED_PWM_RANGE : Nat := 100

/-- `SPEED_PWM_IDX_L` in the source. -/
def SPEED_PWM_IDX_L : Nat := 100

/-- `SPEED_PWM_IDX_H = SPEED_PWM_IDX_L + SPEED_PWM_RANGE` in the source. -/
def SPEED_PWM_IDX_H : Nat := SPEED_PWM_IDX_L + SPEED_PWM_RANGE

/-- `impl TryFrom<u8> for Speed`.  The Rust range pattern
`SPEED_PWM_IDX_L..SPEED_PWM_IDX_H` is half-open, i.e. bytes 100..=199. -/
def speedOfU8 (value : Nat) : Except ProtocolError Speed :=
  match value with
  | 0 => .ok .Stop
  | 1 => .ok .Slow
  | 2 => .ok .Normal
  | 3 => .ok .Fast
  | _ =>
    if SPEED_PWM_IDX_L ≤ value ∧ value < SPEED_PWM_IDX_H then
      .ok (.PwmDutyCycle (value - SPEED_PWM_IDX_L))
    else
      .error (.UnknownSpeed value)

/-- `impl From<Speed> for u8`: total; a duty cycle above `SPEED_PWM_RANGE`
is clamped to `SPEED_PWM_RANGE` before the offset is added. -/
def u8OfSpeed : Speed → Nat
  | .Stop => 0
  | .Slow => 1
  | .Normal => 2
  | .Fast => 3
  | .PwmDutyCycle duty =>
    (if duty > SPEED_PWM_RANGE then SPEED_PWM_RANGE else duty) + SPEED_PWM_IDX_L

/-! ### Rail network model (`loco_controller/src/rail_network.rs`) -/

/-- `rail_network::Error`. -/
inductive RailNetworkError where
  | ConvertCheckpointsIntoSegmentId
  deriving DecidableEq, Repr

/-- `rail_network::SegmentPriority` (derived `Ord` follows declaration order). -/
inductive SegmentPriority where
  | Priority0
  | Priority1
  | Priority2
  deriving DecidableEq, Repr

/-- Rank realising the derived `Ord` on `SegmentPriority`. -/
def SegmentPriority.rank : SegmentPriority → Nat
  | .Priority0 => 0
  | .Priority1 => 1
  | .Priority2 => 2

/-- `rail_network::TrackId`. -/
inductive TrackId where
  | Track1
  | Station1
  | Station2
  deriving DecidableEq, Repr, Fintype

/-- `rail_network::CheckpointId`. -/
inductive CheckpointId where
  | Checkpoint1
  | Checkpoint2
  | Checkpoint3
  | Checkpoint4
  | Checkpoint5
  | Checkpoint6
  | Station1
  | Station2
  deriving DecidableEq, Repr, Fintype

/-- `impl Into<CheckpointId> for SensorId`. -/
def checkpointIdOfSensorId : SensorId → CheckpointId
  | .RfidReader1 => .Checkpoint1
  | .RfidReader2 => .Checkpoint2
  | .RfidReader3 => .Checkpoint3
  | .RfidReader4 => .Checkpoint4
  | .RfidReader5 => .Checkpoint5
  | .RfidReader6 => .Checkpoint6
  | .RfidReader7 => .Station1
  | .RfidReader8 => .Station2

/-- `rail_network::SegmentId`. -/
inductive SegmentId where
  | Segment1
  | Segment2
  | Segment3
  | Segment4
  | Segment5
  | Segment6
  | Segment7
  | Segment8
  | Segment9
  | Segment10
  deriving DecidableEq, Repr, Fintype

/-- `impl TryInto<SegmentId> for (CheckpointId, CheckpointId)`. -/
def segmentIdOfCheckpoints :
    CheckpointId × CheckpointId → Except RailNetworkError SegmentId
  | (.Checkpoint1, .Checkpoint2) => .ok .Segment1
  | (.Checkpoint2, .Checkpoint1) => .ok .Segment1
  | (.Checkpoint2, .Checkpoint3) => .ok .Segment2
  | (.Checkpoint3, .Checkpoint2) => .ok .Segment2
  | (.Checkpoint3, .Checkpoint4) => .ok .Segment3
  | (.Checkpoint4, .Checkpoint3) => .ok .Segment3
  | (.Checkpoint4, .Checkpoint5) => .ok .Segment4
  | (.Checkpoint5, .Checkpoint4) => .ok .Segment4
  | (.Checkpoint5, .Checkpoint6) => .ok .Segment5
  | (.Checkpoint6, .Checkpoint5) => .ok .Segment5
  | (.Checkpoint6, .Checkpoint1) => .ok .Segment6
  | (.Checkpoint1, .Checkpoint6) => .ok .Segment6
  | (.Checkpoint6, .Station1) => .ok .Segment7
  | (.Station1, .Checkpoint6) => .ok .Segment7
  | (.Station1, .Checkpoint2) => .ok .Segment8
  | (.Checkpoint2, .Station1) => .ok .Segment8
  | (.Checkpoint3, .Station2) => .ok .Segment9
  | (.Station2, .Checkpoint3) => .ok .Segment9
  | (.Checkpoint5, .Station2) => .ok .Segment10
  | (.Station2, .Checkpoint5) => .ok .Segment10
  | _ => .error .ConvertCheckpointsIntoSegmentId

/-- `rail_network::SwitchRails`. -/
structure SwitchRails where
  actuatorId : ActuatorId
  state : SwitchRailsState
  deriving DecidableEq, Repr

/-- `rail_network::Segment`. -/
structure Segment where
  priority : SegmentPriority
  switchRails : List SwitchRails
  conflicts : List SegmentId
  deriving DecidableEq, Repr

/-- `rail_network::Checkpoint`.  The Rust field is a `BTreeMap` filled with
both directions (the accessor unwraps), so it is modelled as a total
function from `Direction`. -/
structure Checkpoint where
  checkpointIds : Direction → List CheckpointId
  trackId : TrackId
  priority : SegmentPriority

/-- The `checkpoints` map built in `RailNetwork::new`, as a total function
(the source map holds every `CheckpointId`). -/
def railCheckpoint : CheckpointId → Checkpoint
  | .Checkpoint1 =>
    { checkpointIds := fun
        | .Forward => [.Checkpoint2]
        | .Backward => [.Checkpoint6]
      trackId := .Track1
      priority := .Priority0 }
  | .Checkpoint2 =>
    { checkpointIds := fun
        | .Forward => [.Checkpoint3]
        | .Backward => [.Checkpoint1, .Station1]
      trackId := .Track1
      priority := .Priority0 }
  | .Checkpoint3 =>
    { checkpointIds := fun
        | .Forward => [.Checkpoint4, .Station2]
        | .Backward => [.Checkpoint2]
      trackId := .Track1
      priority := .Priority0 }
  | .Checkpoint4 =>
    { checkpointIds := fun
        | .Forward => [.Checkpoint5]
        | .Backward => [.Checkpoint3]
      trackId := .Track1
      priority := .Priority0 }
  | .Checkpoint5 =>
    { checkpointIds := fun
        | .Forward => [.Checkpoint6]
        | .Backward => [.Checkpoint4, .Station2]
      trackId := .Track1
      priority := .Priority0 }
  | .Checkpoint6 =>
    { checkpointIds := fun
        | .Forward => [.Checkpoint1, .Station1]
        | .Backward => [.Checkpoint5]
      trackId := .Track1
      priority := .Priority0 }
  | .Station1 =>
    { checkpointIds := fun
        | .Forward => [.Checkpoint2]
        | .Backward => [.Checkpoint6]
      trackId := .Station1
      priority := .Priority1 }
  | .Station2 =>
    { checkpointIds := fun
        | .Forward => [.Checkpoint5]
        | .Backward => [.Checkpoint3]
      trackId := .Station2
      priority := .Priority1 }

/-- The `segments` map built in `RailNetwork::new`, as a total function
(the source map holds every `SegmentId`; `RailNetwork::segment` unwraps). -/
def railSegment : SegmentId → Segment
  | .Segment1 =>
    { priority := .Priority0
      switchRails := [⟨.SwitchRails2, .Direct⟩]
      conflicts := [.Segment8] }
  | .Segment2 =>
    { priority := .Priority0
      switchRails := []
      conflicts := [] }
  | .Segment3 =>
    { priority := .Priority0
      switchRails := [⟨.SwitchRails3, .Direct⟩]
      conflicts := [.Segment9] }
  | .Segment4 =>
    { priority := .Priority0
      switchRails := [⟨.SwitchRails4, .Direct⟩]
      conflicts := [.Segment10] }
  | .Segment5 =>
    { priority := .Priority0
      switchRails := []
      conflicts := [] }
  | .Segment6 =>
    { priority := .Priority0
      switchRails := [⟨.SwitchRails1, .Direct⟩]
      conflicts := [.Segment7] }
  | .Segment7 =>
    { priority := .Priority1
      switchRails := [⟨.SwitchRails1, .Diverted⟩]
      conflicts := [.Segment6] }
  | .Segment8 =>
    { priority := .Priority1
      switchRails := [⟨.SwitchRails2, .Diverted⟩]
      conflicts := [.Segment1] }
  | .Segment9 =>
    { priority := .Priority1
      switchRails := [⟨.SwitchRails3, .Diverted⟩]
      conflicts := [.Segment3] }
  | .Segment10 =>
    { priority := .Priority1
      switchRails := [⟨.SwitchRails4, .Diverted⟩]
      conflicts := [.Segment4] }

/-- `longest_path` of the static `RailNetwork`. -/
def longestPath : Nat := 6

/-- Rust `Vec::sort_by_key` is a stable sort; a stable sort by a given key
is unique, so it is modelled by insertion sort ordered by the key's rank
(`List.insertionSort` inserts each earlier element before the later
elements of equal key, hence is stable in the same sense). -/
def sortByPriorityKey {α : Type} (key : α → SegmentPriority) (l : List α) : List α :=
  List.insertionSort (fun a b => (key a).rank ≤ (key b).rank) l

/-- Body of `RailNetwork::next_checkpoint_id_for_track_id_target`.  The Rust
recursion terminates because every recursive call increments `iteration`
and the loop refuses to recurse once `iteration >= longest_path`; to make
that structural the recursion consumes one unit of `fuel` per call, and the
wrapper below supplies `longestPath + 1 - iteration`, which the guard keeps
from ever being exhausted (`nextTrackAux_fuel_irrelevant`).  The source
checks `iteration >= longest_path` inside the loop over the sorted
neighbours; the check does not depend on the loop element, so it is hoisted
in front of the loop (both forms return `none` when the list is empty). -/
def nextTrackAux (fuel iteration : Nat) (cpId : CheckpointId) (direction : Direction)
    (targetTrackId : TrackId) : Option CheckpointId :=
  let nextCpIds := (railCheckpoint cpId).checkpointIds direction
  match nextCpIds.find? (fun n => decide ((railCheckpoint n).trackId = targetTrackId)) with
  | some n => some n
  | none =>
    match fuel with
    | 0 => none
    | fuel + 1 =>
      if longestPath ≤ iteration then none
      else
        (sortByPriorityKey (fun cid => (railCheckpoint cid).priority) nextCpIds).find?
          (fun n => (nextTrackAux fuel (iteration + 1) n direction targetTrackId).isSome)

/-- `RailNetwork::next_checkpoint_id_for_track_id_target`. -/
def nextCheckpointIdForTrackIdTarget (iteration : Nat) (cpId : CheckpointId)
    (direction : Direction) (targetTrackId : TrackId) : Option CheckpointId :=
  nextTrackAux (longestPath + 1 - iteration) iteration cpId direction targetTrackId

/-- Body of `RailNetwork::next_checkpoint_id_for_checkpoint_id_target`,
with the same fuel discipline as `nextTrackAux`. -/
def nextCpAux (fuel iteration : Nat) (cpId : CheckpointId) (direction : Direction)
    (targetCpId : CheckpointId) : Option CheckpointId :=
  let nextCpIds := (railCheckpoint cpId).checkpointIds direction
  match nextCpIds.find? (fun n => decide (n = targetCpId)) with
  | some n => some n
  | none =>
    match fuel with
    | 0 => none
    | fuel + 1 =>
      if longestPath ≤ iteration then none
      else
        (sortByPriorityKey (fun cid => (railCheckpoint cid).priority) nextCpIds).find?
          (fun n => (nextCpAux fuel (iteration + 1) n direction targetCpId).isSome)

/-- `RailNetwork::next_checkpoint_id_for_checkpoint_id_target`. -/
def nextCheckpointIdForCheckpointIdTarget (iteration : Nat) (cpId : CheckpointId)
    (direction : Direction) (targetCpId : CheckpointId) : Option CheckpointId :=
  nextCpAux (longestPath + 1 - iteration) iteration cpId direction targetCpId

/-- Specification-side predicate: there is a chain of `1 ≤ k ≤ bound`
neighbour steps in `direction` from `cpId` ending at a checkpoint whose
`trackId` is `targetTrackId`. -/
def pathWithinTrack (bound : Nat) (cpId : CheckpointId) (direction : Direction)
    (targetTrackId : TrackId) : Bool :=
  match bound with
  | 0 => false
  | bound + 1 =>
    ((railCheckpoint cpId).checkpointIds direction).any
      (fun n =>
        decide ((railCheckpoint n).trackId = targetTrackId) ||
          pathWithinTrack bound n direction targetTrackId)

/-! ### Backend types (`loco_controller/src/backend.rs`)

Only the data the Oracle consumes is embedded; transport payloads that wrap
foreign library errors (`io::Error`, bincode errors) carry no structure
relevant to the claims and are modelled as bare constructors. -/

/-- `backend::Error`. -/
inductive BackendError where
  | ActuatorsNotConnected
  | ConvertLocoProtocolType (e : ProtocolError)
  | DecodeFromStream
  | EncodeToVec
  | InvalidBackendProtocolMagicNumber (v : Nat)
  | LocoNotConnected (id : LocoId)
  | UnsupportedOperation
  | WriteTcpStream
  deriving DecidableEq, Repr

/-- `backend::LocoIntent`. -/
inductive LocoIntent where
  | Drive (direction : Direction) (trackId : TrackId)
  | Stop (direction : Direction) (checkpointId : CheckpointId)
  deriving DecidableEq, Repr

/-- `backend::LocoStatus` (the data returned by `Backend::loco_status`). -/
structure LocoStatus where
  direction : Direction
  speed : Speed
  location : Option SensorId
  intent : Option LocoIntent
  deriving DecidableEq, Repr

/-! ### Oracle (`loco_controller/src/oracle.rs`) -/

/-- `oracle::Error`. -/
inductive OracleError where
  | ControlLoco (e : BackendError)
  | ConvertCheckpointsIntoSegmentId (e : RailNetworkError)
  | DriveActuator (e : BackendError)
  | LocoStatus (e : BackendError)
  | NextCheckpointNotFound
  deriving DecidableEq, Repr

/-- `oracle::ActiveSegment`. -/
structure ActiveSegment where
  id : Option SegmentId
  segment : Option Segment
  direction : Direction
  locoId : LocoId
  deriving DecidableEq, Repr

/-- `oracle::ActiveLoco`. -/
structure ActiveLoco where
  id : LocoId
  speed : Speed
  location : Option CheckpointId
  intent : Option LocoIntent
  deriving DecidableEq, Repr

/-- `Oracle::active_locos`: the status-gather loop over `loco_ids`,
parameterised by the outcome `statusOf` of each `Backend::loco_status`
call.  A `LocoNotConnected` failure skips the locomotive, any other
backend failure aborts with `OracleError::LocoStatus`. -/
def activeLocos (statusOf : LocoId → Except BackendError LocoStatus) :
    List LocoId → Except OracleError (List ActiveLoco)
  | [] => .ok []
  | locoId :: rest =>
    match statusOf locoId with
    | .ok status => do
      let tail ← activeLocos statusOf rest
      .ok ({ id := locoId
             speed := status.speed
             location := status.location.map checkpointIdOfSensorId
             intent := status.intent } :: tail)
    | .error (.LocoNotConnected _) => activeLocos statusOf rest
    | .error e => .error (.LocoStatus e)

/-- First loop of `Oracle::determine_active_segments`: the checkpoints
occupied by a stopped locomotive with a known location. -/
def busyCheckpointIds (locos : List ActiveLoco) : List CheckpointId :=
  locos.filterMap (fun al =>
    match al.location with
    | some location => if al.speed = Speed.Stop then some location else none
    | none => none)

/-- Second loop of `Oracle::determine_active_segments`, with the
`busy_checkpoint_ids` list already computed. -/
def determineActiveSegmentsGo (busyCps : List CheckpointId) :
    List ActiveLoco → Except OracleError (List ActiveSegment)
  | [] => .ok []
  | al :: rest =>
    match al.location, al.intent with
    | some checkpointId, some intent =>
      let withNext : CheckpointId → Direction → Except OracleError (List ActiveSegment) :=
        fun nextCheckpointId direction =>
          if nextCheckpointId ∈ busyCps then do
            let tail ← determineActiveSegmentsGo busyCps rest
            .ok ({ id := none, segment := none, direction, locoId := al.id } :: tail)
          else
            match segmentIdOfCheckpoints (checkpointId, nextCheckpointId) with
            | .error e => .error (.ConvertCheckpointsIntoSegmentId e)
            | .ok sid => do
              let tail ← determineActiveSegmentsGo busyCps rest
              .ok ({ id := some sid, segment := some (railSegment sid), direction,
                     locoId := al.id } :: tail)
      match intent with
      | .Drive direction targetTrackId =>
        match nextCheckpointIdForTrackIdTarget 0 checkpointId direction targetTrackId with
        | none => .error .NextCheckpointNotFound
        | some nextCp => withNext nextCp direction
      | .Stop direction targetCheckpointId =>
        if targetCheckpointId = checkpointId then do
          let tail ← determineActiveSegmentsGo busyCps rest
          .ok ({ id := none, segment := none, direction, locoId := al.id } :: tail)
        else
          match nextCheckpointIdForCheckpointIdTarget 0 checkpointId direction
              targetCheckpointId with
          | none => .error .NextCheckpointNotFound
          | some nextCp => withNext nextCp direction
    | _, _ => determineActiveSegmentsGo busyCps rest

/-- `Oracle::determine_active_segments`, starting from the gathered
`ActiveLoco` records. -/
def determineActiveSegments (locos : List ActiveLoco) :
    Except OracleError (List ActiveSegment) :=
  determineActiveSegmentsGo (busyCheckpointIds locos) locos

/-- One step of the leader-promotion loop in `Oracle::sort_active_segments`:
insert `segment` into the accumulator, before the first already-placed
entry carrying the same `SegmentId` when that id equals this locomotive's
`last_segment_id`. -/
def promoteOne (lastSegmentId : LocoId → Option SegmentId)
    (acc : List ActiveSegment) (segment : ActiveSegment) : List ActiveSegment :=
  match segment.id, lastSegmentId segment.locoId with
  | some sid, some lastSid =>
    match acc.findIdx? (fun sorted =>
        match sorted.id with
        | some sortedSid => decide (sid = sortedSid) && decide (sid = lastSid)
        | none => false) with
    | some i => acc.insertIdx i segment
    | none => acc ++ [segment]
  | _, _ => acc ++ [segment]

/-- The leader-promotion phase of `Oracle::sort_active_segments`. -/
def promoteLeaders (lastSegmentId : LocoId → Option SegmentId)
    (activeSegments : List ActiveSegment) : List ActiveSegment :=
  activeSegments.foldl (promoteOne lastSegmentId) []

/-- The sort key of the priority phase: a null `ActiveSegment` (no
resolved segment) sorts as `Priority2`, the maximum. -/
def activeSegmentKey (s : ActiveSegment) : SegmentPriority :=
  match s.segment with
  | some segment => segment.priority
  | none => SegmentPriority.Priority2

/-- `Oracle::sort_active_segments`: leader promotion, then a stable sort
by ascending segment priority. -/
def sortActiveSegments (lastSegmentId : LocoId → Option SegmentId)
    (activeSegments : List ActiveSegment) : List ActiveSegment :=
  sortByPriorityKey activeSegmentKey (promoteLeaders lastSegmentId activeSegments)

/-- The outputs of `Oracle::determine_controls`.  The Rust method returns
the two command lists; `busySegmentIds` (a local) and `lastSegmentId`
(the mutated `self.last_segment_id`) are exposed so the claims can speak
about them. -/
structure ControlsResult where
  actuatorControls : List (ActuatorId × ActuatorType × Nat)
  locoControls : List (LocoId × Direction × Speed)
  busySegmentIds : List SegmentId
  lastSegmentId : LocoId → Option SegmentId

/-- The loop of `Oracle::determine_controls`, threading the busy list and
the `last_segment_id` map. -/
def determineControlsGo (lastSegmentId : LocoId → Option SegmentId)
    (busySegmentIds : List SegmentId) :
    List ActiveSegment → ControlsResult
  | [] =>
    { actuatorControls := [], locoControls := [], busySegmentIds, lastSegmentId }
  | activeSegment :: rest =>
    let locoId := activeSegment.locoId
    let direction := activeSegment.direction
    let stopCase : ControlsResult :=
      let r := determineControlsGo lastSegmentId busySegmentIds rest
      { r with locoControls := (locoId, direction, Speed.Stop) :: r.locoControls }
    match activeSegment.id, activeSegment.segment with
    | some segmentId, some segment =>
      if segmentId ∈ busySegmentIds then stopCase
      else if segment.conflicts.any (fun c => decide (c ∈ busySegmentIds)) then stopCase
      else
        let acts := segment.switchRails.map (fun sr =>
          (sr.actuatorId, ActuatorType.SwitchRails, u8OfSwitchRailsState sr.state))
        let r := determineControlsGo
          (fun id => if id = locoId then some segmentId else lastSegmentId id)
          (busySegmentIds ++ [segmentId]) rest
        { r with
          actuatorControls := acts ++ r.actuatorControls
          locoControls := (locoId, direction, Speed.Normal) :: r.locoControls }
    | _, _ => stopCase

/-- `Oracle::determine_controls`. -/
def determineControls (lastSegmentId : LocoId → Option SegmentId)
    (activeSegments : List ActiveSegment) : ControlsResult :=
  determineControlsGo lastSegmentId [] activeSegments

/-! ### Specification-side helpers -/

instance exceptDecEq {ε α : Type} [DecidableEq ε] [DecidableEq α] :
    DecidableEq (Except ε α) := fun a b =>
  match a, b with
  | .ok x, .ok y => decidable_of_iff (x = y) (by simp)
  | .ok _, .error _ => isFalse (fun h => Except.noConfusion h)
  | .error _, .ok _ => isFalse (fun h => Except.noConfusion h)
  | .error x, .error y => decidable_of_iff (x = y) (by simp)

/-- The opposite of a driving direction (used to state the bidirectional
adjacency invariant). -/
def oppositeDirection : Direction → Direction
  | .Forward => .Backward
  | .Backward => .Forward

/-- Two checkpoints are adjacent when one lists the other as a neighbour
in either direction. -/
def adjacentCheckpoints (a b : CheckpointId) : Bool :=
  decide (b ∈ (railCheckpoint a).checkpointIds .Forward) ||
    decide (b ∈ (railCheckpoint a).checkpointIds .Backward)

/-- Decode-then-encode check for one byte: vacuously true when the byte is
rejected, otherwise the re-encoded byte must be the original. -/
def roundtripOk {ε α : Type} (dec : Nat → Except ε α) (enc : α → Nat) (w : Nat) : Bool :=
  match dec w with
  | .ok x => decide (enc x = w)
  | .error _ => true

/-- Whether a `Backend::loco_status` outcome lets the status-gather loop
continue (success, or the skipped `LocoNotConnected`). -/
def isOkOrNotConnected : Except BackendError LocoStatus → Bool
  | .ok _ => true
  | .error (.LocoNotConnected _) => true
  | .error _ => false

/-- Whether a backend error is `LocoNotConnected`. -/
def isLocoNotConnected : BackendError → Bool
  | .LocoNotConnected _ => true
  | _ => false

/-- An `ActiveSegment` that resolved to an actual segment (a "null"
active segment is one whose `id` and `segment` are both `None`). -/
def activeSegmentResolved (e : ActiveSegment) : Bool :=
  e.id.isSome && e.segment.isSome

/-- Scenario S2 of the spec: `Loco1` at `Checkpoint2`, intent
`Drive(Forward, Track1)`. -/
def s2Loco1 : ActiveLoco :=
  { id := .Loco1, speed := .Normal, location := some .Checkpoint2,
    intent := some (.Drive .Forward .Track1) }

/-- Scenario S2 of the spec: `Loco2` at `Checkpoint2`, same intent. -/
def s2Loco2 : ActiveLoco :=
  { id := .Loco2, speed := .Normal, location := some .Checkpoint2,
    intent := some (.Drive .Forward .Track1) }

/-- Scenario S2 of the spec: `Loco1.last_segment_id` is the segment both
locomotives now target (`Segment2`, between `Checkpoint2` and
`Checkpoint3`). -/
def s2Last : LocoId → Option SegmentId
  | .Loco1 => some .Segment2
  | .Loco2 => none

/-- Scenario S3 of the spec: `Loco1` stopped at `Station1` with intent
`Stop(Forward, Station1)`. -/
def s3Loco1 : ActiveLoco :=
  { id := .Loco1, speed := .Stop, location := some .Station1,
    intent := some (.Stop .Forward .Station1) }

/-- A resolved active segment on `Segment2` for `Loco1` (used as concrete
input to the conflict-resolution pass). -/
def c1SegA : ActiveSegment :=
  { id := some .Segment2, segment := some (railSegment .Segment2),
    direction := .Forward, locoId := .Loco1 }

/-- A resolved active segment on `Segment5` for `Loco2`. -/
def c1SegB : ActiveSegment :=
  { id := some .Segment5, segment := some (railSegment .Segment5),
    direction := .Forward, locoId := .Loco2 }

/-- The S2 active segment of `Loco2`: same contested `Segment2`. -/
def c3SegB : ActiveSegment :=
  { id := some .Segment2, segment := some (railSegment .Segment2),
    direction := .Forward, locoId := .Loco2 }

/-! ### General helper lemmas -/

theorem findIdx?_some_lt {α : Type} (p : α → Bool) :
    ∀ (l : List α) (j : Nat), List.findIdx? p l = some j → j < l.length := by
  intro l
  induction l with
  | nil => intro j h; simp [List.findIdx?] at h
  | cons x xs ih =>
    intro j h
    simp only [List.length_cons]
    by_cases hp : p x = true
    · rw [List.findIdx?_cons, if_pos hp] at h
      simp at h
      omega
    · rw [List.findIdx?_cons, if_neg hp] at h
      simp at h
      obtain ⟨a, ha, rfl⟩ := h
      have := ih a ha
      omega

theorem find?_congruent {α : Type} (p q : α → Bool) :
    ∀ l : List α, (∀ a ∈ l, p a = q a) → l.find? p = l.find? q := by
  intro l
  induction l with
  | nil => intro _; rfl
  | cons x xs ih =>
    intro h
    rw [List.find?_cons, List.find?_cons, h x (by simp)]
    cases hq : q x with
    | true => rfl
    | false => exact ih (fun a ha => h a (by simp [ha]))

theorem insertIdx_perm_cons {α : Type} (a : α) :
    ∀ (n : Nat) (l : List α), n ≤ l.length → (l.insertIdx n a).Perm (a :: l) := by
  intro n
  induction n with
  | zero => intro l _; simp
  | succ m ih =>
    intro l hl
    cases l with
    | nil => simp at hl
    | cons b bs =>
      simp only [List.insertIdx_succ_cons]
      exact ((ih bs (by simpa using hl)).cons b).trans (List.Perm.swap a b bs)

/-! ### Claim theorems -/

/-- C7: segment lookup is symmetric in its two checkpoint arguments: for
adjacent checkpoints both orders succeed with the same `SegmentId`, and
for non-adjacent pairs both orders fail with
`Error::ConvertCheckpointsIntoSegmentId` (symmetry of the two orders is
stated unconditionally as equality of the two results). -/
theorem segment_lookup_symmetric :
    ∀ a b : CheckpointId,
      segmentIdOfCheckpoints (a, b) = segmentIdOfCheckpoints (b, a) ∧
      (if adjacentCheckpoints a b then (segmentIdOfCheckpoints (a, b)).isOk = true
       else segmentIdOfCheckpoints (a, b) =
         .error .ConvertCheckpointsIntoSegmentId) := by
  decide

/-- C5 counterexample: the claim says encoding never produces a wire byte
outside `{0..3} ∪ {100..199}` and refuses out-of-range inputs; but the
encoder is total and maps `PwmDutyCycle(100)` (not clamped, since the
clamp only fires strictly above `SPEED_PWM_RANGE = 100`) to byte 200,
which the decoder itself rejects. -/
theorem speed_encoding_range_counterexample :
    u8OfSpeed (Speed.PwmDutyCycle 100) = 200 ∧
    ¬(200 ≤ 3 ∨ (100 ≤ 200 ∧ 200 ≤ 199)) ∧
    speedOfU8 (u8OfSpeed (Speed.PwmDutyCycle 100)) =
      .error (.UnknownSpeed 200) := by
  decide

/-- C5 amended: encoding is total — it clamps duty cycles above 100 to
100, so every produced byte lies in `{0..3} ∪ {100..200}` (the byte 200,
produced for `PwmDutyCycle(p)` with `p ≥ 100`, is outside the decodable
range); decoding any byte outside `{0..3} ∪ {100..199}` fails with
`UnknownSpeed` carrying that byte. -/
theorem speed_encoding_clamped_decode_rejects (s : Speed) (v : Nat) :
    (u8OfSpeed s ≤ 3 ∨ (100 ≤ u8OfSpeed s ∧ u8OfSpeed s ≤ 200)) ∧
    (v < 256 → ¬(v ≤ 3 ∨ (100 ≤ v ∧ v ≤ 199)) →
      speedOfU8 v = .error (.UnknownSpeed v)) := by
  constructor
  · rcases s with _ | _ | _ | _ | d
    · exact Or.inl (by decide)
    · exact Or.inl (by decide)
    · exact Or.inl (by decide)
    · exact Or.inl (by decide)
    · right
      simp only [u8OfSpeed, SPEED_PWM_RANGE, SPEED_PWM_IDX_L]
      split <;> omega
  · intro hv hrange
    have H : ∀ w : Nat, w < 256 →
        (decide (w ≤ 3 ∨ (100 ≤ w ∧ w ≤ 199)) ||
          decide (speedOfU8 w = .error (.UnknownSpeed w))) = true := by
      set_option maxRecDepth 8192 in decide
    have h := H v hv
    simp only [Bool.or_eq_true, decide_eq_true_eq] at h
    rcases h with h | h
    · exact absurd h hrange
    · exact h

/-- C5 witness: the amended theorem applied at `Fast` and byte 50. -/
theorem speed_encoding_clamped_witness :
    (u8OfSpeed Speed.Fast ≤ 3 ∨ (100 ≤ u8OfSpeed Speed.Fast ∧ u8OfSpeed Speed.Fast ≤ 200)) ∧
    speedOfU8 50 = .error (.UnknownSpeed 50) :=
  ⟨(speed_encoding_clamped_decode_rejects Speed.Fast 50).1,
   (speed_encoding_clamped_decode_rejects Speed.Fast 50).2 (by decide) (by decide)⟩

/-- C6: for every byte each decoder accepts, re-encoding the decoded value
with the matching encoder yields exactly that byte again, for `Speed`,
`Direction`, `LocoId`, `SensorId`, `ActuatorId` and `SwitchRailsState`. -/
theorem decode_encode_roundtrip (v : Nat) (hv : v < 256) :
    (∀ s, speedOfU8 v = .ok s → u8OfSpeed s = v) ∧
    (∀ d, directionOfU8 v = .ok d → u8OfDirection d = v) ∧
    (∀ l, locoIdOfU8 v = .ok l → u8OfLocoId l = v) ∧
    (∀ s, sensorIdOfU8 v = .ok s → u8OfSensorId s = v) ∧
    (∀ a, actuatorIdOfU8 v = .ok a → u8OfActuatorId a = v) ∧
    (∀ w, switchRailsStateOfU8 v = .ok w → u8OfSwitchRailsState w = v) := by
  have H : ∀ u : Nat, u < 256 →
      (roundtripOk speedOfU8 u8OfSpeed u &&
        (roundtripOk directionOfU8 u8OfDirection u &&
          (roundtripOk locoIdOfU8 u8OfLocoId u &&
            (roundtripOk sensorIdOfU8 u8OfSensorId u &&
              (roundtripOk actuatorIdOfU8 u8OfActuatorId u &&
                roundtripOk switchRailsStateOfU8 u8OfSwitchRailsState u))))) = true := by
    set_option maxRecDepth 8192 in decide
  have h := H v hv
  simp only [Bool.and_eq_true] at h
  obtain ⟨h1, h2, h3, h4, h5, h6⟩ := h
  refine ⟨fun s hs => ?_, fun d hd => ?_, fun l hl => ?_, fun s hs => ?_,
    fun a ha => ?_, fun w hw => ?_⟩
  · rw [roundtripOk, hs, decide_eq_true_eq] at h1; exact h1
  · rw [roundtripOk, hd, decide_eq_true_eq] at h2; exact h2
  · rw [roundtripOk, hl, decide_eq_true_eq] at h3; exact h3
  · rw [roundtripOk, hs, decide_eq_true_eq] at h4; exact h4
  · rw [roundtripOk, ha, decide_eq_true_eq] at h5; exact h5
  · rw [roundtripOk, hw, decide_eq_true_eq] at h6; exact h6

/-- C6 witness: the round-trip theorem applied at byte 150, which decodes
to `PwmDutyCycle(50)` and re-encodes to 150. -/
theorem decode_encode_roundtrip_witness :
    u8OfSpeed (Speed.PwmDutyCycle 50) = 150 :=
  (decode_encode_roundtrip 150 (by decide)).1 (Speed.PwmDutyCycle 50) (by decide)

/-- C9: the statically constructed rail network satisfies the data-model
invariants: every neighbour list is non-empty and adjacency is
bidirectional; the conflict relation is symmetric; and two distinct
segments whose switch requirements name the same actuator with differing
required states are mutual conflicts. -/
theorem rail_network_invariants :
    (∀ (cp : CheckpointId) (dir : Direction),
      (railCheckpoint cp).checkpointIds dir ≠ [] ∧
      ∀ n ∈ (railCheckpoint cp).checkpointIds dir,
        cp ∈ (railCheckpoint n).checkpointIds (oppositeDirection dir)) ∧
    (∀ s1 s2 : SegmentId,
      s1 ∈ (railSegment s2).conflicts ↔ s2 ∈ (railSegment s1).conflicts) ∧
    (∀ s1 s2 : SegmentId, s1 ≠ s2 →
      (∃ r1 ∈ (railSegment s1).switchRails, ∃ r2 ∈ (railSegment s2).switchRails,
        r1.actuatorId = r2.actuatorId ∧ r1.state ≠ r2.state) →
      s1 ∈ (railSegment s2).conflicts ∧ s2 ∈ (railSegment s1).conflicts) := by
  refine ⟨by decide, by decide, by decide⟩

/-- C9 witness: the invariants applied to the pair `Segment1`/`Segment8`,
which share `SwitchRails2` with differing states. -/
theorem rail_network_invariants_witness :
    SegmentId.Segment1 ∈ (railSegment .Segment8).conflicts ∧
    SegmentId.Segment8 ∈ (railSegment .Segment1).conflicts :=
  rail_network_invariants.2.2 .Segment1 .Segment8 (by decide) (by decide)

theorem nextTrackAux_fuel_irrelevant :
    ∀ (f1 f2 i : Nat) (cp : CheckpointId) (dir : Direction) (t : TrackId),
      longestPath < i + f1 → longestPath < i + f2 →
      nextTrackAux f1 i cp dir t = nextTrackAux f2 i cp dir t := by
  intro f1
  induction f1 with
  | zero =>
    intro f2 i cp dir t h1 h2
    cases f2 with
    | zero => rfl
    | succ b =>
      simp only [nextTrackAux]
      cases hfind : ((railCheckpoint cp).checkpointIds dir).find?
          (fun n => decide ((railCheckpoint n).trackId = t)) with
      | some n => rfl
      | none => rw [if_pos (by omega)]
  | succ a ih =>
    intro f2 i cp dir t h1 h2
    cases f2 with
    | zero =>
      simp only [nextTrackAux]
      cases hfind : ((railCheckpoint cp).checkpointIds dir).find?
          (fun n => decide ((railCheckpoint n).trackId = t)) with
      | some n => rfl
      | none => rw [if_pos (by omega)]
    | succ b =>
      simp only [nextTrackAux]
      cases hfind : ((railCheckpoint cp).checkpointIds dir).find?
          (fun n => decide ((railCheckpoint n).trackId = t)) with
      | some n => rfl
      | none =>
        by_cases hL : longestPath ≤ i
        · simp [hL]
        · simp only [if_neg hL]
          apply find?_congruent
          intro n hn
          rw [ih b (i + 1) n dir t (by omega) (by omega)]

theorem nextCpAux_fuel_irrelevant :
    ∀ (f1 f2 i : Nat) (cp : CheckpointId) (dir : Direction) (tcp : CheckpointId),
      longestPath < i + f1 → longestPath < i + f2 →
      nextCpAux f1 i cp dir tcp = nextCpAux f2 i cp dir tcp := by
  intro f1
  induction f1 with
  | zero =>
    intro f2 i cp dir tcp h1 h2
    cases f2 with
    | zero => rfl
    | succ b =>
      simp only [nextCpAux]
      cases hfind : ((railCheckpoint cp).checkpointIds dir).find?
          (fun n => decide (n = tcp)) with
      | some n => rfl
      | none => rw [if_pos (by omega)]
  | succ a ih =>
    intro f2 i cp dir tcp h1 h2
    cases f2 with
    | zero =>
      simp only [nextCpAux]
      cases hfind : ((railCheckpoint cp).checkpointIds dir).find?
          (fun n => decide (n = tcp)) with
      | some n => rfl
      | none => rw [if_pos (by omega)]
    | succ b =>
      simp only [nextCpAux]
      cases hfind : ((railCheckpoint cp).checkpointIds dir).find?
          (fun n => decide (n = tcp)) with
      | some n => rfl
      | none =>
        by_cases hL : longestPath ≤ i
        · simp [hL]
        · simp only [if_neg hL]
          apply find?_congruent
          intro n hn
          rw [ih b (i + 1) n dir tcp (by omega) (by omega)]

/-- C10: both path searches are total functions of their arguments and
their recursion depth is bounded by `longest_path`: the fuel wrappers
compute the same answer for every fuel beyond `longest_path - iteration`
(each recursive call increments `iteration`, and the guard refuses to
recurse once `iteration ≥ longest_path`), so the functions defined with
fuel `longest_path + 1 - iteration` realise the Rust recursion. -/
theorem path_search_total_depth_bounded (fuel i : Nat) (cp : CheckpointId)
    (dir : Direction) (t : TrackId) (tcp : CheckpointId)
    (hfuel : longestPath < i + fuel) :
    nextTrackAux fuel i cp dir t = nextCheckpointIdForTrackIdTarget i cp dir t ∧
    nextCpAux fuel i cp dir tcp = nextCheckpointIdForCheckpointIdTarget i cp dir tcp :=
  ⟨nextTrackAux_fuel_irrelevant fuel (longestPath + 1 - i) i cp dir t hfuel (by omega),
   nextCpAux_fuel_irrelevant fuel (longestPath + 1 - i) i cp dir tcp hfuel (by omega)⟩

/-- C10 witness: with generous fuel 20 the searches agree with the bounded
definitions on a concrete input. -/
theorem path_search_total_witness :
    nextTrackAux 20 0 .Checkpoint1 .Forward .Station1 =
      nextCheckpointIdForTrackIdTarget 0 .Checkpoint1 .Forward .Station1 ∧
    nextCpAux 20 0 .Checkpoint1 .Forward .Station2 =
      nextCheckpointIdForCheckpointIdTarget 0 .Checkpoint1 .Forward .Station2 :=
  path_search_total_depth_bounded 20 0 .Checkpoint1 .Forward .Station1 .Station2
    (by decide)

/-- C2: characterisation of `next_checkpoint_id_for_track_id_target`:
(1) at iteration 0 it succeeds exactly when some path of length at most
`longest_path` in the given direction ends on the target track;
(2) an immediate neighbour on the target track (the first in neighbour
order) is returned directly, at any iteration;
(3) otherwise, at iteration 0, the result is the first neighbour in
ascending checkpoint-priority order whose recursive search (at
iteration 1) succeeds;
(4) once `iteration ≥ longest_path` the recursion is refused: with no
immediate neighbour on the target track the search returns `None`. -/
theorem track_search_spec :
    (∀ (cp : CheckpointId) (dir : Direction) (t : TrackId),
      (nextCheckpointIdForTrackIdTarget 0 cp dir t).isSome =
        pathWithinTrack longestPath cp dir t) ∧
    (∀ (i : Nat) (cp : CheckpointId) (dir : Direction) (t : TrackId) (n : CheckpointId),
      ((railCheckpoint cp).checkpointIds dir).find?
          (fun m => decide ((railCheckpoint m).trackId = t)) = some n →
      nextCheckpointIdForTrackIdTarget i cp dir t = some n) ∧
    (∀ (cp : CheckpointId) (dir : Direction) (t : TrackId),
      ((railCheckpoint cp).checkpointIds dir).find?
          (fun m => decide ((railCheckpoint m).trackId = t)) = none →
      nextCheckpointIdForTrackIdTarget 0 cp dir t =
        (sortByPriorityKey (fun cid => (railCheckpoint cid).priority)
            ((railCheckpoint cp).checkpointIds dir)).find?
          (fun m => (nextCheckpointIdForTrackIdTarget 1 m dir t).isSome)) ∧
    (∀ (i : Nat) (cp : CheckpointId) (dir : Direction) (t : TrackId),
      longestPath ≤ i →
      ((railCheckpoint cp).checkpointIds dir).find?
          (fun m => decide ((railCheckpoint m).trackId = t)) = none →
      nextCheckpointIdForTrackIdTarget i cp dir t = none) := by
  refine ⟨by decide, ?_, by decide, ?_⟩
  · intro i cp dir t n h
    simp only [nextCheckpointIdForTrackIdTarget]
    cases hf : longestPath + 1 - i with
    | zero => simp only [nextTrackAux]; rw [h]
    | succ b => simp only [nextTrackAux]; rw [h]
  · intro i cp dir t hi h
    simp only [nextCheckpointIdForTrackIdTarget]
    cases hf : longestPath + 1 - i with
    | zero => simp only [nextTrackAux]; rw [h]
    | succ b => simp only [nextTrackAux]; rw [h, if_pos hi]

/-- C2 witness: from `Checkpoint3` forward, `Station2` is an immediate
neighbour on the target track and is returned. -/
theorem track_search_spec_witness :
    nextCheckpointIdForTrackIdTarget 0 .Checkpoint3 .Forward .Station2 =
      some .Station2 :=
  track_search_spec.2.1 0 .Checkpoint3 .Forward .Station2 .Station2 (by decide)

/-- C8: in the Oracle's status-gather loop, a `loco_status` outcome of
`LocoNotConnected` silently skips that locomotive and the loop continues;
any other backend error aborts the whole gather with
`OracleError::LocoStatus` carrying it; a success contributes an
`ActiveLoco` with the reported speed, location and intent. -/
theorem status_gather_spec :
    (∀ (statusOf : LocoId → Except BackendError LocoStatus) (ids : List LocoId),
      (∀ lid ∈ ids, isOkOrNotConnected (statusOf lid) = true) →
      activeLocos statusOf ids = .ok (ids.filterMap (fun lid =>
        match statusOf lid with
        | .ok st => some { id := lid, speed := st.speed,
                           location := st.location.map checkpointIdOfSensorId,
                           intent := st.intent }
        | .error _ => none))) ∧
    (∀ (statusOf : LocoId → Except BackendError LocoStatus)
        (ids1 : List LocoId) (lid : LocoId) (ids2 : List LocoId) (e : BackendError),
      (∀ x ∈ ids1, isOkOrNotConnected (statusOf x) = true) →
      statusOf lid = .error e → isLocoNotConnected e = false →
      activeLocos statusOf (ids1 ++ lid :: ids2) = .error (.LocoStatus e)) := by
  constructor
  · intro statusOf ids h
    induction ids with
    | nil => rfl
    | cons x rest ih =>
      have hx := h x (by simp)
      have ihr := ih (fun y hy => h y (by simp [hy]))
      cases hst : statusOf x with
      | ok st =>
        simp only [activeLocos, hst, ihr, List.filterMap_cons]
        rfl
      | error e =>
        rw [hst] at hx
        cases e with
        | LocoNotConnected l =>
          simp only [activeLocos, hst, List.filterMap_cons]
          rw [ihr]
        | ActuatorsNotConnected => simp [isOkOrNotConnected] at hx
        | ConvertLocoProtocolType p => simp [isOkOrNotConnected] at hx
        | DecodeFromStream => simp [isOkOrNotConnected] at hx
        | EncodeToVec => simp [isOkOrNotConnected] at hx
        | InvalidBackendProtocolMagicNumber v => simp [isOkOrNotConnected] at hx
        | UnsupportedOperation => simp [isOkOrNotConnected] at hx
        | WriteTcpStream => simp [isOkOrNotConnected] at hx
  · intro statusOf ids1 lid ids2 e h hid hfatal
    induction ids1 with
    | nil =>
      simp only [List.nil_append]
      cases e with
      | LocoNotConnected l => simp [isLocoNotConnected] at hfatal
      | ActuatorsNotConnected => simp [activeLocos, hid]
      | ConvertLocoProtocolType p => simp [activeLocos, hid]
      | DecodeFromStream => simp [activeLocos, hid]
      | EncodeToVec => simp [activeLocos, hid]
      | InvalidBackendProtocolMagicNumber v => simp [activeLocos, hid]
      | UnsupportedOperation => simp [activeLocos, hid]
      | WriteTcpStream => simp [activeLocos, hid]
    | cons x rest ih =>
      have hx := h x (by simp)
      have ihr := ih (fun y hy => h y (by simp [hy]))
      cases hst : statusOf x with
      | ok st =>
        simp only [List.cons_append, activeLocos, hst, List.append_eq, ihr]
        rfl
      | error e2 =>
        rw [hst] at hx
        cases e2 with
        | LocoNotConnected l =>
          simp only [List.cons_append, activeLocos, hst, List.append_eq]
          exact ihr
        | ActuatorsNotConnected => simp [isOkOrNotConnected] at hx
        | ConvertLocoProtocolType p => simp [isOkOrNotConnected] at hx
        | DecodeFromStream => simp [isOkOrNotConnected] at hx
        | EncodeToVec => simp [isOkOrNotConnected] at hx
        | InvalidBackendProtocolMagicNumber v => simp [isOkOrNotConnected] at hx
        | UnsupportedOperation => simp [isOkOrNotConnected] at hx
        | WriteTcpStream => simp [isOkOrNotConnected] at hx

/-- C8 witness: two disconnected locomotives are skipped, and a transport
error aborts the gather with `LocoStatus`. -/
theorem status_gather_spec_witness :
    activeLocos (fun _ => .error (.LocoNotConnected .Loco1)) [.Loco1, .Loco2] =
      .ok [] ∧
    activeLocos (fun _ => .error .WriteTcpStream) [.Loco1] =
      .error (.LocoStatus .WriteTcpStream) :=
  ⟨(status_gather_spec.1 (fun _ => .error (.LocoNotConnected .Loco1))
      [.Loco1, .Loco2] (by decide)).trans (by decide),
   status_gather_spec.2 (fun _ => .error .WriteTcpStream) [] .Loco1 []
     .WriteTcpStream (by decide) rfl rfl⟩

/-- The conflict relation of the static network is symmetric (checked over
all 100 segment pairs). -/
theorem railSegment_conflicts_symm :
    ∀ s1 s2 : SegmentId,
      s1 ∈ (railSegment s2).conflicts ↔ s2 ∈ (railSegment s1).conflicts := by
  decide

/-- Unfolding of `determineControlsGo` on a granted head: the head resolved
to a segment that is neither busy nor in conflict with a busy segment. -/
theorem controlsGo_cons_granted (last : LocoId → Option SegmentId)
    (busy : List SegmentId) (a : ActiveSegment) (rest : List ActiveSegment)
    (sid : SegmentId) (seg : Segment)
    (hid : a.id = some sid) (hseg : a.segment = some seg)
    (hb : sid ∉ busy) (hc : ∀ c ∈ seg.conflicts, c ∉ busy) :
    determineControlsGo last busy (a :: rest) =
      { determineControlsGo (fun x => if x = a.locoId then some sid else last x)
          (busy ++ [sid]) rest with
        actuatorControls := (seg.switchRails.map (fun sr =>
            (sr.actuatorId, ActuatorType.SwitchRails, u8OfSwitchRailsState sr.state))) ++
          (determineControlsGo (fun x => if x = a.locoId then some sid else last x)
            (busy ++ [sid]) rest).actuatorControls
        locoControls := (a.locoId, a.direction, Speed.Normal) ::
          (determineControlsGo (fun x => if x = a.locoId then some sid else last x)
            (busy ++ [sid]) rest).locoControls } := by
  have hcb : ¬(seg.conflicts.any (fun c => decide (c ∈ busy)) = true) := by
    intro h
    rw [List.any_eq_true] at h
    obtain ⟨c, hcm, hcb⟩ := h
    exact hc c hcm (of_decide_eq_true hcb)
  simp only [determineControlsGo, hid, hseg, if_neg hb, if_neg hcb]

/-- Unfolding of `determineControlsGo` on a non-granted head: it emits a
`Stop` command and changes no state. -/
theorem controlsGo_cons_not_granted (last : LocoId → Option SegmentId)
    (busy : List SegmentId) (a : ActiveSegment) (rest : List ActiveSegment)
    (hng : ¬ ∃ sid seg, a.id = some sid ∧ a.segment = some seg ∧ sid ∉ busy ∧
        ∀ c ∈ seg.conflicts, c ∉ busy) :
    determineControlsGo last busy (a :: rest) =
      { determineControlsGo last busy rest with
        locoControls := (a.locoId, a.direction, Speed.Stop) ::
          (determineControlsGo last busy rest).locoControls } := by
  rcases hid : a.id with _ | sid
  · simp only [determineControlsGo, hid]
  · rcases hseg : a.segment with _ | seg
    · simp only [determineControlsGo, hid, hseg]
    · by_cases hbusy : sid ∈ busy
      · simp only [determineControlsGo, hid, hseg, if_pos hbusy]
      · have hcb : seg.conflicts.any (fun c => decide (c ∈ busy)) = true := by
          by_contra hcf
          apply hng
          refine ⟨sid, seg, hid, hseg, hbusy, fun c hcm hcb => ?_⟩
          exact hcf (List.any_eq_true.mpr ⟨c, hcm, decide_eq_true hcb⟩)
        simp only [determineControlsGo, hid, hseg, if_neg hbusy, if_pos hcb]

/-- A `Normal` command at position `j` means the `j`-th input resolved to a
segment that was not busy and conflicted with nothing busy when reached. -/
theorem controlsGo_normal_spec :
    ∀ (l : List ActiveSegment) (last : LocoId → Option SegmentId)
      (busy : List SegmentId) (j : Nat) (lj : LocoId) (dj : Direction),
      ((determineControlsGo last busy l).locoControls)[j]? =
        some (lj, dj, Speed.Normal) →
      ∃ a s seg, l[j]? = some a ∧ a.id = some s ∧ a.segment = some seg ∧
        a.locoId = lj ∧ s ∉ busy ∧ ∀ c ∈ seg.conflicts, c ∉ busy := by
  intro l
  induction l with
  | nil => intro last busy j lj dj h; simp [determineControlsGo] at h
  | cons a rest ih =>
    intro last busy j lj dj h
    by_cases hg : ∃ sid seg, a.id = some sid ∧ a.segment = some seg ∧ sid ∉ busy ∧
        ∀ c ∈ seg.conflicts, c ∉ busy
    · obtain ⟨sid, seg, hid, hseg, hb, hc⟩ := hg
      rw [controlsGo_cons_granted last busy a rest sid seg hid hseg hb hc] at h
      cases j with
      | zero =>
        simp only [List.getElem?_cons_zero, Option.some.injEq] at h
        refine ⟨a, sid, seg, by simp, hid, hseg, ?_, hb, hc⟩
        exact congrArg Prod.fst h
      | succ k =>
        simp only [List.getElem?_cons_succ] at h
        obtain ⟨a2, s2, seg2, ha2, hid2, hseg2, hl2, hnb2, hnc2⟩ := ih _ _ k lj dj h
        refine ⟨a2, s2, seg2, by simpa using ha2, hid2, hseg2, hl2, ?_, ?_⟩
        · intro hmem; exact hnb2 (by simp [hmem])
        · intro c hcm hcmem; exact hnc2 c hcm (by simp [hcmem])
    · rw [controlsGo_cons_not_granted last busy a rest hg] at h
      cases j with
      | zero => simp at h
      | succ k =>
        simp only [List.getElem?_cons_succ] at h
        obtain ⟨a2, s2, seg2, ha2, hid2, hseg2, hl2, hnb2, hnc2⟩ := ih _ _ k lj dj h
        exact ⟨a2, s2, seg2, by simpa using ha2, hid2, hseg2, hl2, hnb2, hnc2⟩

/-- Two `Normal` commands in one pass name distinct, mutually
non-conflicting segments (with the input's embedded segment data
consistent with the network, as `determine_active_segments` produces). -/
theorem controlsGo_normal_pair :
    ∀ (l : List ActiveSegment) (last : LocoId → Option SegmentId)
      (busy : List SegmentId) (i j : Nat) (li lj : LocoId) (di dj : Direction),
      (∀ a ∈ l, ∀ sid, a.id = some sid → a.segment = some (railSegment sid)) →
      i < j →
      ((determineControlsGo last busy l).locoControls)[i]? =
        some (li, di, Speed.Normal) →
      ((determineControlsGo last busy l).locoControls)[j]? =
        some (lj, dj, Speed.Normal) →
      ∃ s1 s2, (l[i]?.bind ActiveSegment.id) = some s1 ∧
        (l[j]?.bind ActiveSegment.id) = some s2 ∧ s1 ≠ s2 ∧
        s2 ∉ (railSegment s1).conflicts ∧ s1 ∉ (railSegment s2).conflicts := by
  intro l
  induction l with
  | nil => intro last busy i j li lj di dj hcons hij hi hj; simp [determineControlsGo] at hi
  | cons a rest ih =>
    intro last busy i j li lj di dj hcons hij hi hj
    by_cases hg : ∃ sid seg, a.id = some sid ∧ a.segment = some seg ∧ sid ∉ busy ∧
        ∀ c ∈ seg.conflicts, c ∉ busy
    · obtain ⟨sid, seg, hid, hseg, hb, hc⟩ := hg
      rw [controlsGo_cons_granted last busy a rest sid seg hid hseg hb hc] at hi hj
      cases i with
      | zero =>
        cases j with
        | zero => omega
        | succ k =>
          simp only [List.getElem?_cons_succ] at hj
          obtain ⟨a2, s2, seg2, ha2, hid2, hseg2, _, hnb2, hnc2⟩ :=
            controlsGo_normal_spec rest _ _ k lj dj hj
          have ha2mem : a2 ∈ rest := List.getElem?_mem ha2
          have hseg2c : seg2 = railSegment s2 := by
            have := hcons a2 (by simp [ha2mem]) s2 hid2
            rw [hseg2] at this
            exact Option.some.inj this
          have hs2ne : s2 ≠ sid := by
            intro hcontra
            exact hnb2 (by simp [hcontra])
          rw [hseg2c] at hnc2
          have hsid_not : sid ∉ (railSegment s2).conflicts := by
            intro hmem
            exact hnc2 sid hmem (by simp)
          refine ⟨sid, s2, by simp [hid], by simp [ha2, hid2], hs2ne.symm, ?_, hsid_not⟩
          intro hmem
          exact hsid_not ((railSegment_conflicts_symm s2 sid).mp hmem)
      | succ m =>
        cases j with
        | zero => omega
        | succ k =>
          simp only [List.getElem?_cons_succ] at hi hj
          obtain ⟨s1, s2, h1, h2, hne, hc1, hc2⟩ :=
            ih _ _ m k li lj di dj (fun x hx => hcons x (by simp [hx])) (by omega) hi hj
          exact ⟨s1, s2, by simpa using h1, by simpa using h2, hne, hc1, hc2⟩
    · rw [controlsGo_cons_not_granted last busy a rest hg] at hi hj
      cases i with
      | zero => simp at hi
      | succ m =>
        cases j with
        | zero => omega
        | succ k =>
          simp only [List.getElem?_cons_succ] at hi hj
          obtain ⟨s1, s2, h1, h2, hne, hc1, hc2⟩ :=
            ih _ _ m k li lj di dj (fun x hx => hcons x (by simp [hx])) (by omega) hi hj
          exact ⟨s1, s2, by simpa using h1, by simpa using h2, hne, hc1, hc2⟩

/-- C1: for every list of `ActiveSegment`s processed by one
conflict-resolution pass (`determine_controls`) — whose embedded segment
data is consistent with the network, as every list the Oracle ever passes
in is — any two positions commanded `Normal` carry chosen segments
`S1, S2` with `S1 ≠ S2`, `S2 ∉ conflicts(S1)` and `S1 ∉ conflicts(S2)`. -/
theorem conflict_resolution_normals_conflict_free
    (last : LocoId → Option SegmentId) (l : List ActiveSegment)
    (hcons : ∀ a ∈ l, ∀ sid, a.id = some sid → a.segment = some (railSegment sid))
    (i j : Nat) (li lj : LocoId) (di dj : Direction) (hij : i < j)
    (hi : ((determineControls last l).locoControls)[i]? = some (li, di, Speed.Normal))
    (hj : ((determineControls last l).locoControls)[j]? = some (lj, dj, Speed.Normal)) :
    ∃ s1 s2, (l[i]?.bind ActiveSegment.id) = some s1 ∧
      (l[j]?.bind ActiveSegment.id) = some s2 ∧ s1 ≠ s2 ∧
      s2 ∉ (railSegment s1).conflicts ∧ s1 ∉ (railSegment s2).conflicts :=
  controlsGo_normal_pair l last [] i j li lj di dj hcons hij hi hj

/-- C1 witness: a pass over two consistent active segments (`Segment2` for
`Loco1`, `Segment5` for `Loco2`) grants both `Normal`, and the theorem
yields distinct non-conflicting segments. -/
theorem conflict_resolution_witness :
    ∃ s1 s2, ([c1SegA, c1SegB][0]?.bind ActiveSegment.id) = some s1 ∧
      ([c1SegA, c1SegB][1]?.bind ActiveSegment.id) = some s2 ∧ s1 ≠ s2 ∧
      s2 ∉ (railSegment s1).conflicts ∧ s1 ∉ (railSegment s2).conflicts :=
  conflict_resolution_normals_conflict_free (fun _ => none) [c1SegA, c1SegB]
    (by decide) 0 1 .Loco1 .Loco2 .Forward .Forward (by decide) (by decide) (by decide)

/-- Each step of the leader-promotion loop inserts exactly the processed
element into the accumulator. -/
theorem promoteOne_perm (last : LocoId → Option SegmentId)
    (acc : List ActiveSegment) (x : ActiveSegment) :
    (promoteOne last acc x).Perm (x :: acc) := by
  rcases hid : x.id with _ | sid
  · simp only [promoteOne, hid]
    exact List.perm_append_singleton x acc
  · rcases hlast : last x.locoId with _ | lsid
    · simp only [promoteOne, hid, hlast]
      exact List.perm_append_singleton x acc
    · simp only [promoteOne, hid, hlast]
      cases hidx : acc.findIdx? (fun sorted =>
          match sorted.id with
          | some sortedSid => decide (sid = sortedSid) && decide (sid = lsid)
          | none => false) with
      | none => exact List.perm_append_singleton x acc
      | some i =>
        exact insertIdx_perm_cons x i acc
          (Nat.le_of_lt (findIdx?_some_lt _ acc i hidx))

/-- The leader-promotion phase permutes its input. -/
theorem promoteLeaders_foldl_perm (last : LocoId → Option SegmentId) :
    ∀ (l acc : List ActiveSegment),
      (List.foldl (promoteOne last) acc l).Perm (acc ++ l) := by
  intro l
  induction l with
  | nil => intro acc; simp
  | cons x rest ih =>
    intro acc
    have h1 : (List.foldl (promoteOne last) (promoteOne last acc x) rest).Perm
        ((promoteOne last acc x) ++ rest) := ih (promoteOne last acc x)
    have h2 : ((promoteOne last acc x) ++ rest).Perm ((x :: acc) ++ rest) :=
      (promoteOne_perm last acc x).append_right rest
    have h3 : ((x :: acc) ++ rest).Perm (acc ++ x :: rest) := by
      simp only [List.cons_append]
      exact List.perm_middle.symm
    exact (h1.trans h2).trans h3

/-- `sort_active_segments` permutes its input. -/
theorem sortActiveSegments_perm (last : LocoId → Option SegmentId)
    (l : List ActiveSegment) : (sortActiveSegments last l).Perm l := by
  refine (List.perm_insertionSort _ _).trans ?_
  simpa using promoteLeaders_foldl_perm last l []

/-- `sort_active_segments` output is sorted by ascending priority key
(null active segments carrying the maximal `Priority2` key). -/
theorem sortActiveSegments_sorted (last : LocoId → Option SegmentId)
    (l : List ActiveSegment) :
    List.Sorted (fun x y => (activeSegmentKey x).rank ≤ (activeSegmentKey y).rank)
      (sortActiveSegments last l) := by
  haveI : IsTotal ActiveSegment
      (fun x y => (activeSegmentKey x).rank ≤ (activeSegmentKey y).rank) :=
    ⟨fun a b => Nat.le_total _ _⟩
  haveI : IsTrans ActiveSegment
      (fun x y => (activeSegmentKey x).rank ≤ (activeSegmentKey y).rank) :=
    ⟨fun a b c hab hbc => Nat.le_trans hab hbc⟩
  exact List.sorted_insertionSort _ _

/-- C3: the two-phase ordering of `sort_active_segments`:
(a) when two locomotives resolve to the same `SegmentId` and exactly one
of them has `last_segment_id` equal to that id, the matching one is
ordered before the other (for either input order);
(b) the result is a permutation of the input, sorted by ascending segment
priority with null active segments keyed as the maximal `Priority2`
(stability is what part (a) exercises across the second phase);
(c) consequently, in the S2 configuration (both locomotives target
`Segment2`, `Loco1.last_segment_id` matches it) `Loco1` is commanded
`Normal` and `Loco2` `Stop`, for either gather order. -/
theorem sort_active_segments_spec :
    (∀ (last : LocoId → Option SegmentId) (a b : ActiveSegment) (s : SegmentId),
      a.locoId ≠ b.locoId →
      a.id = some s → b.id = some s →
      a.segment = some (railSegment s) → b.segment = some (railSegment s) →
      last a.locoId = some s → last b.locoId ≠ some s →
      sortActiveSegments last [a, b] = [a, b] ∧
      sortActiveSegments last [b, a] = [a, b]) ∧
    (∀ (last : LocoId → Option SegmentId) (l : List ActiveSegment),
      (sortActiveSegments last l).Perm l ∧
      List.Sorted (fun x y => (activeSegmentKey x).rank ≤ (activeSegmentKey y).rank)
        (sortActiveSegments last l)) ∧
    (((determineActiveSegments [s2Loco1, s2Loco2]).map (fun segs =>
        (determineControls s2Last (sortActiveSegments s2Last segs)).locoControls)) =
      .ok [(.Loco1, .Forward, .Normal), (.Loco2, .Forward, .Stop)] ∧
    ((determineActiveSegments [s2Loco2, s2Loco1]).map (fun segs =>
        (determineControls s2Last (sortActiveSegments s2Last segs)).locoControls)) =
      .ok [(.Loco1, .Forward, .Normal), (.Loco2, .Forward, .Stop)]) := by
  refine ⟨?_,
    fun last l => ⟨sortActiveSegments_perm last l, sortActiveSegments_sorted last l⟩,
    by decide, by decide⟩
  intro last a b s hne haid hbid haseg hbseg hla hlb
  have sort_ab : sortByPriorityKey activeSegmentKey [a, b] = [a, b] := by
    simp [sortByPriorityKey, List.insertionSort, List.orderedInsert,
      activeSegmentKey, haseg, hbseg]
  have pa : promoteOne last [] a = [a] := by
    simp [promoteOne, haid, hla, List.findIdx?]
  have pb : promoteOne last [a] b = [a, b] := by
    rcases hlb2 : last b.locoId with _ | x
    · simp [promoteOne, hbid, hlb2]
    · have hxs : ¬(s = x) := by
        intro h
        exact hlb (by rw [hlb2, h])
      simp [promoteOne, hbid, hlb2, List.findIdx?_cons, haid, hxs, List.findIdx?]
  have pb0 : promoteOne last [] b = [b] := by
    rcases hlb2 : last b.locoId with _ | x
    · simp [promoteOne, hbid, hlb2]
    · simp [promoteOne, hbid, hlb2, List.findIdx?]
  have pa1 : promoteOne last [b] a = [a, b] := by
    simp [promoteOne, haid, hla, List.findIdx?_cons, hbid]
  constructor
  · show sortByPriorityKey activeSegmentKey
        (List.foldl (promoteOne last) [] [a, b]) = [a, b]
    simp only [List.foldl_cons, List.foldl_nil, pa, pb]
    exact sort_ab
  · show sortByPriorityKey activeSegmentKey
        (List.foldl (promoteOne last) [] [b, a]) = [a, b]
    simp only [List.foldl_cons, List.foldl_nil, pb0, pa1]
    exact sort_ab

/-- C3 witness: the S2 pair (`Loco1` and `Loco2` both on `Segment2`,
`Loco1`'s last segment matching) is ordered `Loco1` first from either
input order. -/
theorem sort_active_segments_witness :
    sortActiveSegments s2Last [c1SegA, c3SegB] = [c1SegA, c3SegB] ∧
    sortActiveSegments s2Last [c3SegB, c1SegA] = [c1SegA, c3SegB] :=
  sort_active_segments_spec.1 s2Last c1SegA c3SegB .Segment2 (by decide)
    (by decide) (by decide) (by decide) (by decide) (by decide) (by decide)

/-- Unfolding of the active-segment loop on an arrived locomotive: intent
`Stop(dir, cp)` with location `cp` contributes exactly the null active
segment. -/
theorem segmentsGo_cons_arrived (busy : List CheckpointId) (al : ActiveLoco)
    (rest : List ActiveLoco) (dir : Direction) (cp : CheckpointId)
    (hloc : al.location = some cp) (hint : al.intent = some (.Stop dir cp)) :
    determineActiveSegmentsGo busy (al :: rest) =
      (determineActiveSegmentsGo busy rest).map
        (fun tail => { id := none, segment := none, direction := dir,
                       locoId := al.id } :: tail) := by
  simp only [determineActiveSegmentsGo, hloc, hint, if_pos rfl]
  cases determineActiveSegmentsGo busy rest <;> rfl

/-- Inversion of the active-segment loop on a cons: the head either is
skipped (unknown location or intent) or contributes exactly one
`ActiveSegment` carrying its own `LocoId`. -/
theorem segmentsGo_cons_inv (busy : List CheckpointId) (al : ActiveLoco)
    (rest : List ActiveLoco) (ss : List ActiveSegment)
    (h : determineActiveSegmentsGo busy (al :: rest) = .ok ss) :
    (determineActiveSegmentsGo busy rest = .ok ss ∧
      (al.location = none ∨ al.intent = none)) ∨
    (∃ entry tail, ss = entry :: tail ∧ entry.locoId = al.id ∧
      determineActiveSegmentsGo busy rest = .ok tail) := by
  rcases hloc : al.location with _ | cp
  · left
    constructor
    · rw [← h]
      simp only [determineActiveSegmentsGo, hloc]
    · exact Or.inl rfl
  · rcases hint : al.intent with _ | intent
    · left
      constructor
      · rw [← h]
        simp only [determineActiveSegmentsGo, hloc, hint]
      · exact Or.inr rfl
    · right
      rcases intent with ⟨dir, tk⟩ | ⟨dir, tcp⟩
      · simp only [determineActiveSegmentsGo, hloc, hint] at h
        rcases hnext : nextCheckpointIdForTrackIdTarget 0 cp dir tk with _ | ncp <;>
          simp only [hnext] at h
        · exact absurd h (fun hc => Except.noConfusion hc)
        · by_cases hb : ncp ∈ busy
          · rw [if_pos hb] at h
            rcases hr : determineActiveSegmentsGo busy rest with e | tail <;> rw [hr] at h
            · exact absurd h (fun hc => Except.noConfusion hc)
            · exact ⟨_, tail, (Except.ok.inj h).symm, rfl, rfl⟩
          · rw [if_neg hb] at h
            rcases hcv : segmentIdOfCheckpoints (cp, ncp) with e | sid <;>
              simp only [hcv] at h
            · exact absurd h (fun hc => Except.noConfusion hc)
            · rcases hr : determineActiveSegmentsGo busy rest with e | tail <;> rw [hr] at h
              · exact absurd h (fun hc => Except.noConfusion hc)
              · exact ⟨_, tail, (Except.ok.inj h).symm, rfl, rfl⟩
      · simp only [determineActiveSegmentsGo, hloc, hint] at h
        by_cases harr : tcp = cp
        · rw [if_pos harr] at h
          rcases hr : determineActiveSegmentsGo busy rest with e | tail <;> rw [hr] at h
          · exact absurd h (fun hc => Except.noConfusion hc)
          · exact ⟨_, tail, (Except.ok.inj h).symm, rfl, rfl⟩
        · rw [if_neg harr] at h
          rcases hnext : nextCheckpointIdForCheckpointIdTarget 0 cp dir tcp with _ | ncp <;>
            simp only [hnext] at h
          · exact absurd h (fun hc => Except.noConfusion hc)
          · by_cases hb : ncp ∈ busy
            · rw [if_pos hb] at h
              rcases hr : determineActiveSegmentsGo busy rest with e | tail <;> rw [hr] at h
              · exact absurd h (fun hc => Except.noConfusion hc)
              · exact ⟨_, tail, (Except.ok.inj h).symm, rfl, rfl⟩
            · rw [if_neg hb] at h
              rcases hcv : segmentIdOfCheckpoints (cp, ncp) with e | sid <;>
                simp only [hcv] at h
              · exact absurd h (fun hc => Except.noConfusion hc)
              · rcases hr : determineActiveSegmentsGo busy rest with e | tail <;> rw [hr] at h
                · exact absurd h (fun hc => Except.noConfusion hc)
                · exact ⟨_, tail, (Except.ok.inj h).symm, rfl, rfl⟩

/-- Locomotives absent from the gathered list contribute no active
segment. -/
theorem segmentsGo_no_loco (busy : List CheckpointId) :
    ∀ (ll : List ActiveLoco) (ss : List ActiveSegment) (lid : LocoId),
      determineActiveSegmentsGo busy ll = .ok ss →
      (∀ x ∈ ll, x.id ≠ lid) →
      ∀ e ∈ ss, e.locoId ≠ lid := by
  intro ll
  induction ll with
  | nil =>
    intro ss lid h _
    have h2 := Except.ok.inj h
    rw [← h2]
    intro e he
    simp at he
  | cons al rest ih =>
    intro ss lid h hids
    rcases segmentsGo_cons_inv busy al rest ss h with ⟨hrest, _⟩ | ⟨entry, tail, hss, hel, hrest⟩
    · exact ih ss lid hrest (fun x hx => hids x (by simp [hx]))
    · intro e he
      rw [hss] at he
      rcases List.mem_cons.mp he with rfl | hetail
      · rw [hel]
        exact hids al (by simp)
      · exact ih tail lid hrest (fun x hx => hids x (by simp [hx])) e hetail

/-- In a successful pass over a list containing an arrived locomotive
(and no other record for that `LocoId`), the active segments for that
`LocoId` are exactly one null entry carrying the intent's direction. -/
theorem segmentsGo_arrived_filter (busy : List CheckpointId) :
    ∀ (l1 : List ActiveLoco) (al : ActiveLoco) (l2 : List ActiveLoco)
      (ss : List ActiveSegment) (dir : Direction) (cp : CheckpointId),
      al.location = some cp → al.intent = some (.Stop dir cp) →
      (∀ x ∈ l1 ++ l2, x.id ≠ al.id) →
      determineActiveSegmentsGo busy (l1 ++ al :: l2) = .ok ss →
      ss.filter (fun e => decide (e.locoId = al.id)) =
        [{ id := none, segment := none, direction := dir, locoId := al.id }] := by
  intro l1
  induction l1 with
  | nil =>
    intro al l2 ss dir cp hloc hint hids h
    rw [List.nil_append, segmentsGo_cons_arrived busy al l2 dir cp hloc hint] at h
    rcases hr : determineActiveSegmentsGo busy l2 with e | tail <;> rw [hr] at h
    · exact absurd h (fun hc => Except.noConfusion hc)
    · have h2 := (Except.ok.inj h).symm
      have htail : tail.filter (fun e => decide (e.locoId = al.id)) = [] := by
        rw [List.filter_eq_nil_iff]
        intro e he
        simp only [decide_eq_true_eq]
        exact segmentsGo_no_loco busy l2 tail al.id hr
          (fun x hx => hids x (by simp [hx])) e he
      rw [h2, List.filter_cons]
      simp [htail]
  | cons x l1t ih =>
    intro al l2 ss dir cp hloc hint hids h
    rw [List.cons_append] at h
    rcases segmentsGo_cons_inv busy x (l1t ++ al :: l2) ss h with
      ⟨hrest, _⟩ | ⟨entry, tail, hss, hel, hrest⟩
    · exact ih al l2 ss dir cp hloc hint (fun y hy => hids y (by simp at hy ⊢; tauto)) hrest
    · rw [hss, List.filter_cons]
      have hxne : entry.locoId ≠ al.id := by
        rw [hel]
        exact hids x (by simp)
      simp only [decide_eq_true_eq]
      rw [if_neg hxne]
      exact ih al l2 tail dir cp hloc hint (fun y hy => hids y (by simp at hy ⊢; tauto)) hrest

/-- A pass emits no locomotive command for a `LocoId` with no entry in its
input. -/
theorem controlsGo_no_loco_controls :
    ∀ (l : List ActiveSegment) (last : LocoId → Option SegmentId)
      (busy : List SegmentId) (lid : LocoId),
      (∀ e ∈ l, e.locoId ≠ lid) →
      ((determineControlsGo last busy l).locoControls).filter
        (fun c => decide (c.1 = lid)) = [] := by
  intro l
  induction l with
  | nil => intro last busy lid _; rfl
  | cons a rest ih =>
    intro last busy lid hids
    have hane : a.locoId ≠ lid := hids a (by simp)
    by_cases hg : ∃ sid seg, a.id = some sid ∧ a.segment = some seg ∧ sid ∉ busy ∧
        ∀ c ∈ seg.conflicts, c ∉ busy
    · obtain ⟨sid, seg, hid, hseg, hb, hc⟩ := hg
      rw [controlsGo_cons_granted last busy a rest sid seg hid hseg hb hc]
      simp only [List.filter_cons, decide_eq_true_eq]
      rw [if_neg hane]
      exact ih _ _ lid (fun e he => hids e (by simp [he]))
    · rw [controlsGo_cons_not_granted last busy a rest hg]
      simp only [List.filter_cons, decide_eq_true_eq]
      rw [if_neg hane]
      exact ih _ _ lid (fun e he => hids e (by simp [he]))

/-- When the only entry of a `LocoId` in the pass input is the null active
segment with direction `dir`, the pass emits for that `LocoId` exactly the
single command `(lid, dir, Stop)`. -/
theorem controlsGo_null_loco_stop :
    ∀ (l : List ActiveSegment) (last : LocoId → Option SegmentId)
      (busy : List SegmentId) (lid : LocoId) (dir : Direction),
      l.filter (fun e => decide (e.locoId = lid)) =
        [{ id := none, segment := none, direction := dir, locoId := lid }] →
      ((determineControlsGo last busy l).locoControls).filter
        (fun c => decide (c.1 = lid)) = [(lid, dir, Speed.Stop)] := by
  intro l
  induction l with
  | nil => intro last busy lid dir h; simp at h
  | cons a rest ih =>
    intro last busy lid dir h
    rw [List.filter_cons] at h
    by_cases hae : a.locoId = lid
    · rw [if_pos (by simp [hae])] at h
      have ha : a = { id := none, segment := none, direction := dir, locoId := lid } :=
        (List.cons.inj h).1
      have hrest : rest.filter (fun e => decide (e.locoId = lid)) = [] :=
        (List.cons.inj h).2
      have hng : ¬ ∃ sid seg, a.id = some sid ∧ a.segment = some seg ∧ sid ∉ busy ∧
          ∀ c ∈ seg.conflicts, c ∉ busy := by
        rintro ⟨sid, seg, hid, _⟩
        rw [ha] at hid
        exact Option.noConfusion hid
      rw [controlsGo_cons_not_granted last busy a rest hng]
      simp only [List.filter_cons, decide_eq_true_eq]
      rw [if_pos hae]
      have htail := controlsGo_no_loco_controls rest last busy lid
        (fun e he => by
          intro hcontra
          have : e ∈ rest.filter (fun e => decide (e.locoId = lid)) :=
            List.mem_filter.mpr ⟨he, by simp [hcontra]⟩
          rw [hrest] at this
          simp at this)
      rw [htail, ha]
    · rw [if_neg (by simp [hae])] at h
      by_cases hg : ∃ sid seg, a.id = some sid ∧ a.segment = some seg ∧ sid ∉ busy ∧
          ∀ c ∈ seg.conflicts, c ∉ busy
      · obtain ⟨sid, seg, hid, hseg, hb, hc⟩ := hg
        rw [controlsGo_cons_granted last busy a rest sid seg hid hseg hb hc]
        simp only [List.filter_cons, decide_eq_true_eq]
        rw [if_neg hae]
        exact ih _ _ lid dir h
      · rw [controlsGo_cons_not_granted last busy a rest hg]
        simp only [List.filter_cons, decide_eq_true_eq]
        rw [if_neg hae]
        exact ih _ _ lid dir h

/-- Null (unresolved) active segments contribute nothing to the actuator
commands, the busy-segment list, or the `last_segment_id` bookkeeping:
dropping them changes none of those outputs. -/
theorem controlsGo_null_irrelevant :
    ∀ (l : List ActiveSegment) (last : LocoId → Option SegmentId)
      (busy : List SegmentId),
      (determineControlsGo last busy l).actuatorControls =
        (determineControlsGo last busy (l.filter activeSegmentResolved)).actuatorControls ∧
      (determineControlsGo last busy l).busySegmentIds =
        (determineControlsGo last busy (l.filter activeSegmentResolved)).busySegmentIds := by
  intro l
  induction l with
  | nil => intro last busy; exact ⟨rfl, rfl⟩
  | cons a rest ih =>
    intro last busy
    by_cases hres : activeSegmentResolved a = true
    · rw [List.filter_cons, if_pos hres]
      obtain ⟨sid, hid⟩ := Option.isSome_iff_exists.mp (Bool.and_elim_left hres)
      obtain ⟨seg, hseg⟩ := Option.isSome_iff_exists.mp (Bool.and_elim_right hres)
      by_cases hg : sid ∈ busy ∨ ∃ c ∈ seg.conflicts, c ∈ busy
      · have hng : ¬ ∃ sid2 seg2, a.id = some sid2 ∧ a.segment = some seg2 ∧
            sid2 ∉ busy ∧ ∀ c ∈ seg2.conflicts, c ∉ busy := by
          rintro ⟨sid2, seg2, hid2, hseg2, hb2, hc2⟩
          rw [hid2] at hid
          rw [hseg2] at hseg
          cases Option.some.inj hid
          cases Option.some.inj hseg
          rcases hg with hbm | ⟨c, hcm, hcb⟩
          · exact hb2 hbm
          · exact hc2 c hcm hcb
        rw [controlsGo_cons_not_granted last busy a rest hng,
          controlsGo_cons_not_granted last busy a (rest.filter activeSegmentResolved) hng]
        exact ih last busy
      · push_neg at hg
        have hb : sid ∉ busy := hg.1
        have hc : ∀ c ∈ seg.conflicts, c ∉ busy := hg.2
        rw [controlsGo_cons_granted last busy a rest sid seg hid hseg hb hc,
          controlsGo_cons_granted last busy a (rest.filter activeSegmentResolved)
            sid seg hid hseg hb hc]
        have := ih (fun x => if x = a.locoId then some sid else last x) (busy ++ [sid])
        exact ⟨by simp only [this.1], this.2⟩
    · rw [List.filter_cons, if_neg hres]
      have hng : ¬ ∃ sid seg, a.id = some sid ∧ a.segment = some seg ∧ sid ∉ busy ∧
          ∀ c ∈ seg.conflicts, c ∉ busy := by
        rintro ⟨sid, seg, hid, hseg, _, _⟩
        exact hres (by simp [activeSegmentResolved, hid, hseg])
      rw [controlsGo_cons_not_granted last busy a rest hng]
      exact ih last busy

/-- C4: an active locomotive whose intent is `Stop(dir, cp)` and whose
known location is `cp` gets, in a completed tick, exactly one locomotive
command, `(loco_id, dir, Stop)`; its (null) active segment contributes no
actuator command and no busy segment — dropping all unresolved entries
changes neither output, and the locomotive is not among the resolved
entries. -/
theorem arrived_stop_spec
    (last : LocoId → Option SegmentId) (l1 l2 : List ActiveLoco) (al : ActiveLoco)
    (dir : Direction) (cp : CheckpointId) (segs : List ActiveSegment)
    (hloc : al.location = some cp) (hint : al.intent = some (.Stop dir cp))
    (hunique : ∀ x ∈ l1 ++ l2, x.id ≠ al.id)
    (hok : determineActiveSegments (l1 ++ al :: l2) = .ok segs) :
    ((determineControls last (sortActiveSegments last segs)).locoControls).filter
        (fun c => decide (c.1 = al.id)) = [(al.id, dir, Speed.Stop)] ∧
    (determineControls last (sortActiveSegments last segs)).actuatorControls =
      (determineControls last
        ((sortActiveSegments last segs).filter activeSegmentResolved)).actuatorControls ∧
    (determineControls last (sortActiveSegments last segs)).busySegmentIds =
      (determineControls last
        ((sortActiveSegments last segs).filter activeSegmentResolved)).busySegmentIds ∧
    ∀ e ∈ (sortActiveSegments last segs).filter activeSegmentResolved,
      e.locoId ≠ al.id := by
  have hfil : segs.filter (fun e => decide (e.locoId = al.id)) =
      [{ id := none, segment := none, direction := dir, locoId := al.id }] :=
    segmentsGo_arrived_filter (busyCheckpointIds (l1 ++ al :: l2)) l1 al l2 segs
      dir cp hloc hint hunique hok
  have hfil2 : (sortActiveSegments last segs).filter
      (fun e => decide (e.locoId = al.id)) =
      [{ id := none, segment := none, direction := dir, locoId := al.id }] := by
    have hp := (sortActiveSegments_perm last segs).filter
      (fun e => decide (e.locoId = al.id))
    rw [hfil] at hp
    exact List.perm_singleton.mp hp
  refine ⟨controlsGo_null_loco_stop (sortActiveSegments last segs) last [] al.id dir hfil2,
    (controlsGo_null_irrelevant (sortActiveSegments last segs) last []).1,
    (controlsGo_null_irrelevant (sortActiveSegments last segs) last []).2, ?_⟩
  intro e he hA
  have hm := List.mem_filter.mp he
  have hmem2 : e ∈ (sortActiveSegments last segs).filter
      (fun x => decide (x.locoId = al.id)) :=
    List.mem_filter.mpr ⟨hm.1, by simp [hA]⟩
  rw [hfil2] at hmem2
  have he2 : e = { id := none, segment := none, direction := dir, locoId := al.id } := by
    simpa using hmem2
  rw [he2] at hm
  exact absurd hm.2 (by simp [activeSegmentResolved])

/-- C4 witness: the S3 scenario — `Loco1` at `Station1` with intent
`Stop(Forward, Station1)` gets exactly the single command
`(Loco1, Forward, Stop)`. -/
theorem arrived_stop_witness :
    ((determineControls (fun _ => none) (sortActiveSegments (fun _ => none)
        [{ id := none, segment := none, direction := .Forward,
           locoId := .Loco1 }])).locoControls).filter
      (fun c => decide (c.1 = LocoId.Loco1)) =
      [(LocoId.Loco1, Direction.Forward, Speed.Stop)] :=
  (arrived_stop_spec (fun _ => none) [] [] s3Loco1 .Forward .Station1
    [{ id := none, segment := none, direction := .Forward, locoId := .Loco1 }]
    rfl rfl (by simp) (by decide)).1

end LocoLoco
